import Mathlib

/-!
Shallow embedding of the query-pipeline builder of
`InterpreterSelectQuery.cpp` (TiFlash): processing stages, the parsed
SELECT query shape, the pipeline of operator chains, and the builder
steps (`executeFetchColumns`, `executeAggregation`, `executeOrder`,
`executeDistinct`, `executeUnion`, `executePreLimit`, `executeLimitBy`,
`executeLimit`, `executeImpl`, ...), followed by theorems about them.

External collaborators (storage reads, the expression analyzer, the
nested union interpreter's streams) are abstracted as oracle inputs;
expression programs are carried as opaque tags, since only their
placement, not their content, is observable by the properties below.
-/

/-- `QueryProcessingStage::Enum`: FetchColumns < WithMergeableState < Complete. -/
inductive QueryProcessingStage where
  | fetchColumns
  | withMergeableState
  | complete
deriving DecidableEq, Repr

def QueryProcessingStage.toNat : QueryProcessingStage → Nat
  | .fetchColumns => 0
  | .withMergeableState => 1
  | .complete => 2

instance : LT QueryProcessingStage := ⟨fun a b => a.toNat < b.toNat⟩

instance : LE QueryProcessingStage := ⟨fun a b => a.toNat ≤ b.toNat⟩

instance (a b : QueryProcessingStage) : Decidable (a < b) :=
  inferInstanceAs (Decidable (a.toNat < b.toNat))

instance (a b : QueryProcessingStage) : Decidable (a ≤ b) :=
  inferInstanceAs (Decidable (a.toNat ≤ b.toNat))

/-- `OverflowMode`: what to do when a size cap is exceeded. -/
inductive OverflowMode where
  | throwError
  | breakExcess
  | anyRow
deriving DecidableEq, Repr

/-- `TotalsMode`: how the totals row interacts with HAVING. -/
inductive TotalsMode where
  | beforeHaving
  | afterHavingExclusive
  | afterHavingInclusive
  | afterHavingAuto
deriving DecidableEq, Repr

/-- `ASTTableJoin::Kind`. -/
inductive JoinKind where
  | inner
  | left
  | right
  | full
  | cross
deriving DecidableEq, Repr

/-- One child of `query.order_expression_list` (`ASTOrderByElement`). -/
structure OrderByElement where
  columnName : String
  direction : Int
  nullsDirection : Int
  collation : Option String
deriving DecidableEq, Repr

/-- One entry of a `SortDescription` (`SortColumnDescription`). -/
structure SortColumnDescription where
  column_name : String
  direction : Int
  nulls_direction : Int
  collator : Option String
deriving DecidableEq, Repr

/-- The clause fields of `ASTSelectQuery` read by the pipeline builder.
Expression subtrees whose content the builder never inspects are kept as
presence booleans; literal-valued fields keep their values. -/
structure QueryClauses where
  distinct : Bool
  group_by_with_totals : Bool
  prewhere_expression : Bool
  where_expression : Bool
  group_expression_list : Bool
  having_expression : Bool
  join : Option JoinKind
  order_expression_list : Option (List OrderByElement)
  limit_by_expression_list : Option (List String)
  limit_by_value : Option Nat
  limit_length : Option Nat
  limit_offset : Option Nat
deriving DecidableEq, Repr

mutual
/-- `ASTSelectQuery`: clause fields plus the FROM-clause table expression. -/
inductive ASTSelectQuery where
  | mk (clauses : QueryClauses) (tableExpr : TableExpression)

/-- The result of `query.table()`: nothing, a named table, a table
function, or a subquery (`ASTSelectWithUnionQuery`). -/
inductive TableExpression where
  | noTable
  | table (database tableName : String)
  | tableFunction
  | subquery (selects : SelectUnionList)

/-- `ASTSelectWithUnionQuery::list_of_selects`. -/
inductive SelectUnionList where
  | nil
  | cons (head : ASTSelectQuery) (tail : SelectUnionList)
end

def ASTSelectQuery.clauses : ASTSelectQuery → QueryClauses
  | .mk c _ => c

def ASTSelectQuery.tableExpr : ASTSelectQuery → TableExpression
  | .mk _ t => t

/-- `getLimitLengthAndOffset`: (0,0) without LIMIT; otherwise the LIMIT
length and, when present, the OFFSET. -/
def getLimitLengthAndOffset (q : ASTSelectQuery) : Nat × Nat :=
  match q.clauses.limit_length with
  | none => (0, 0)
  | some len => (len, q.clauses.limit_offset.getD 0)

mutual
/-- `hasWithTotalsInAnySubqueryInFromClause`: the query itself has WITH
TOTALS, or some SELECT of a FROM-clause subquery chain does. -/
def hasWithTotalsInAnySubqueryInFromClause : ASTSelectQuery → Bool
  | .mk c t => c.group_by_with_totals || hasWithTotalsInFromTable t

def hasWithTotalsInFromTable : TableExpression → Bool
  | .subquery sl => hasWithTotalsInSelectList sl
  | _ => false

def hasWithTotalsInSelectList : SelectUnionList → Bool
  | .nil => false
  | .cons q rest => hasWithTotalsInAnySubqueryInFromClause q || hasWithTotalsInSelectList rest
end

/-- `getSortDescription`: one sort column per ORDER BY element. -/
def getSortDescription (q : ASTSelectQuery) : List SortColumnDescription :=
  (q.clauses.order_expression_list.getD []).map fun e =>
    { column_name := e.columnName
      direction := e.direction
      nulls_direction := e.nullsDirection
      collator := e.collation }

/-- `getLimitForSorting`: partial sort can be bounded if there is a LIMIT
but no DISTINCT or LIMIT BY. -/
def getLimitForSorting (q : ASTSelectQuery) : Nat :=
  if !q.clauses.distinct && !q.clauses.limit_by_expression_list.isSome then
    (getLimitLengthAndOffset q).1 + (getLimitLengthAndOffset q).2
  else 0

/-- `InterpreterSelectQuery::ignoreWithTotals` (the leaf form): clears
`group_by_with_totals` on the interpreter's own query. -/
def ignoreWithTotals : ASTSelectQuery → ASTSelectQuery
  | .mk c t => .mk { c with group_by_with_totals := false } t

/-- Modelled from the spec: `InterpreterSelectWithUnionQuery::ignoreWithTotals`
is not among the provided sources; per the spec the union wrapper forwards
the call to each nested select interpreter, each of which runs the leaf
`ignoreWithTotals` above. -/
def ignoreWithTotalsUnion : SelectUnionList → SelectUnionList
  | .nil => .nil
  | .cons q rest => .cons (ignoreWithTotals q) (ignoreWithTotalsUnion rest)

/-- Every SELECT at the top level of the union list has its WITH TOTALS
modifier cleared. -/
def SelectUnionList.allTotalsCleared : SelectUnionList → Bool
  | .nil => true
  | .cons q rest => (!q.clauses.group_by_with_totals) && rest.allTotalsCleared

/-- `SizeLimits`: a row cap, a byte cap, and what to do on overflow. -/
structure SizeLimits where
  max_rows : Nat
  max_bytes : Nat
  mode : OverflowMode
deriving DecidableEq, Repr

/-- The settings fields of `Settings` that the builder reads. -/
structure Settings where
  max_block_size : Nat
  max_threads : Nat
  max_distributed_connections : Nat
  max_streams_to_max_threads_ratio : Nat
  max_columns_to_read : Nat
  max_rows_to_read : Nat
  max_bytes_to_read : Nat
  read_overflow_mode : OverflowMode
  max_rows_to_group_by : Nat
  group_by_overflow_mode : OverflowMode
  group_by_two_level_threshold : Nat
  group_by_two_level_threshold_bytes : Nat
  max_bytes_before_external_group_by : Nat
  empty_result_for_aggregation_by_empty_set : Bool
  aggregation_memory_efficient_merge_threads : Nat
  distributed_aggregation_memory_efficient : Bool
  totals_mode : TotalsMode
  totals_auto_threshold : Nat
  max_rows_to_sort : Nat
  max_bytes_to_sort : Nat
  sort_overflow_mode : OverflowMode
  max_bytes_before_external_sort : Nat
  max_rows_in_distinct : Nat
  max_bytes_in_distinct : Nat
  distinct_overflow_mode : OverflowMode
  max_rows_to_transfer : Nat
  max_bytes_to_transfer : Nat
  transfer_overflow_mode : OverflowMode
  extremes : Bool
deriving Repr

/-- Tags for the opaque expression programs attached by the builder; each
names the `ExpressionActions` the source passes at that spot. -/
inductive ExpressionKind where
  | beforeJoin
  | aliasActions
  | beforeAggregation
  | beforeOrderAndSelect
  | beforeLimitBy
  | finalProjection
deriving DecidableEq, Repr

/-- Which filter column a `FilterBlockInputStream` is given. -/
inductive FilterKind where
  | whereFilter
  | havingFilter
deriving DecidableEq, Repr

/-- The `Aggregator::Params` fields the builder computes (the header, key
positions and aggregate descriptions are collaborator data). -/
structure AggregatorParams where
  overflow_row : Bool
  max_rows_to_group_by : Nat
  group_by_overflow_mode : OverflowMode
  group_by_two_level_threshold : Nat
  group_by_two_level_threshold_bytes : Nat
  max_bytes_before_external_group_by : Nat
  empty_result_for_aggregation_by_empty_set : Bool
deriving DecidableEq, Repr

/-- One operator chain head (a `BlockInputStreamPtr`), as the term of the
operators composed around it. Constructor names follow the
`...BlockInputStream` classes of the source. -/
inductive BlockInputStream where
  /-- a chain obtained from a collaborator (storage read, prepared input,
  or the nested subquery interpreter) -/
  | source (id : Nat)
  /-- `NullBlockInputStream` substituted for an empty fetch -/
  | nullSource
  /-- `createStreamWithNonJoinedDataIfFullOrRightJoin` result -/
  | nonJoinedSource
  /-- `setLimits`/`setQuota` decoration applied to a fetched chain -/
  | withLimits (s : BlockInputStream) (limits : SizeLimits) (quota : Bool)
  /-- `ExpressionBlockInputStream` -/
  | expression (s : BlockInputStream) (kind : ExpressionKind)
  /-- `FilterBlockInputStream` -/
  | filter (s : BlockInputStream) (kind : FilterKind)
  /-- `AggregatingBlockInputStream` -/
  | aggregating (s : BlockInputStream) (params : AggregatorParams) (final : Bool)
  /-- `ParallelAggregatingBlockInputStream` -/
  | parallelAggregating (ss nj : List BlockInputStream) (params : AggregatorParams)
      (final : Bool) (maxThreads mergeThreads : Nat)
  /-- `ConcatBlockInputStream` -/
  | concat (ss : List BlockInputStream)
  /-- `MergingAggregatedBlockInputStream` -/
  | mergingAggregated (s : BlockInputStream) (overflowRow final : Bool) (threads : Nat)
  /-- `MergingAggregatedMemoryEfficientBlockInputStream` -/
  | mergingAggregatedMemoryEfficient (ss : List BlockInputStream) (overflowRow final : Bool)
      (maxThreads mergeThreads : Nat)
  /-- `TotalsHavingBlockInputStream` -/
  | totalsHaving (s : BlockInputStream) (overflowRow hasHaving : Bool)
      (totalsMode : TotalsMode) (autoThreshold : Nat)
  /-- `PartialSortingBlockInputStream` with its sort-size limits attached -/
  | partialSort (s : BlockInputStream) (descr : List SortColumnDescription) (limit : Nat)
      (limits : SizeLimits)
  /-- `MergeSortingBlockInputStream` -/
  | mergeSorting (s : BlockInputStream) (descr : List SortColumnDescription)
      (maxBlockSize limit maxBytesExternalSort : Nat)
  /-- `AsynchronousBlockInputStream` -/
  | asyncStream (s : BlockInputStream)
  /-- `MergingSortedBlockInputStream` -/
  | mergingSorted (ss : List BlockInputStream) (descr : List SortColumnDescription)
      (maxBlockSize limit : Nat)
  /-- `DistinctBlockInputStream` / `DistinctSortedBlockInputStream`
  (`sortedVariant` tells them apart) -/
  | distinctStream (s : BlockInputStream) (limits : SizeLimits) (limit : Nat)
      (columns : List String) (sortedVariant : Bool)
  /-- `UnionBlockInputStream` -/
  | unionStream (ss nj : List BlockInputStream) (maxStreams : Nat)
  /-- `LimitBlockInputStream` -/
  | limitStream (s : BlockInputStream) (length offset : Nat) (alwaysReadTillEnd : Bool)
  /-- `LimitByBlockInputStream` -/
  | limitByStream (s : BlockInputStream) (value : Nat) (columns : List String)
  /-- `enableExtremes` decoration -/
  | withExtremes (s : BlockInputStream)
  /-- `CreatingSetsBlockInputStream` -/
  | creatingSets (s : BlockInputStream) (limits : SizeLimits)

/-- The pipeline under construction: parallel chains plus the side channel
for non-matched rows of FULL/RIGHT joins. -/
structure Pipeline where
  streams : List BlockInputStream
  streams_with_non_joined_data : List BlockInputStream

/-- Modelled from the spec: `Pipeline::firstStream` (the header declaring
the Pipeline struct is not among the provided sources) returns the first
chain; the source never calls it on an empty pipeline. -/
def Pipeline.firstStream (p : Pipeline) : BlockInputStream :=
  p.streams.headD BlockInputStream.nullSource

/-- Assignment `pipeline.firstStream() = s`. -/
def Pipeline.setFirstStream (p : Pipeline) (s : BlockInputStream) : Pipeline :=
  { p with streams := s :: p.streams.tail }

/-- Modelled from the spec: `Pipeline::transform` applies one rewrite
uniformly to every chain, the non-matched-row side channel included. -/
def Pipeline.transform (p : Pipeline) (f : BlockInputStream → BlockInputStream) : Pipeline :=
  { streams := p.streams.map f
    streams_with_non_joined_data := p.streams_with_non_joined_data.map f }

/-- Modelled from the spec: `Pipeline::hasMoreThanOneStream` reports
whether more than one chain (side channel included) is open. -/
def Pipeline.hasMoreThanOneStream (p : Pipeline) : Bool :=
  p.streams.length + p.streams_with_non_joined_data.length > 1

/-- `InterpreterSelectQuery::executeWhere`: wrap every chain in a filter
on the WHERE column. -/
def executeWhere (p : Pipeline) : Pipeline :=
  p.transform (.filter · .whereFilter)

/-- `InterpreterSelectQuery::executeHaving`: wrap every chain in a filter
on the HAVING column. -/
def executeHaving (p : Pipeline) : Pipeline :=
  p.transform (.filter · .havingFilter)

/-- `InterpreterSelectQuery::executeExpression`: apply one expression
program to every chain. -/
def executeExpression (kind : ExpressionKind) (p : Pipeline) : Pipeline :=
  p.transform (.expression · kind)

/-- `InterpreterSelectQuery::executeProjection`: the final projection is
an expression program applied to every chain. -/
def executeProjection (p : Pipeline) : Pipeline :=
  p.transform (.expression · .finalProjection)

/-- `InterpreterSelectQuery::executeUnion`: 0 chains in total - nothing;
1 chain - nothing, except that a single non-matched-row chain moves into
the main collection; otherwise all chains are glued by one
`UnionBlockInputStream`. -/
def executeUnion (max_streams : Nat) (p : Pipeline) : Pipeline :=
  match p.streams.length + p.streams_with_non_joined_data.length with
  | 0 => p
  | 1 =>
    if p.streams.length == 1 then p
    else
      -- here `streams` is empty and the side channel holds the one chain,
      -- so `streams.push_back(streams_with_non_joined_data.at(0))` makes
      -- the main collection exactly the side channel
      { streams := p.streams_with_non_joined_data
        streams_with_non_joined_data := [] }
  | _ + 2 =>
    { streams := [.unionStream p.streams p.streams_with_non_joined_data max_streams]
      streams_with_non_joined_data := [] }

/-- Lines 979-985 of the source: `Aggregator::Params` as built by
`executeAggregation`; the two-level thresholds are forwarded from the
settings only when more than one stream is open or the external-spill
byte threshold is set. -/
def aggregationParams (settings : Settings) (streamsCount : Nat) (overflow_row : Bool) :
    AggregatorParams :=
  let allow_to_use_two_level_group_by :=
    streamsCount > 1 || settings.max_bytes_before_external_group_by != 0
  { overflow_row := overflow_row
    max_rows_to_group_by := settings.max_rows_to_group_by
    group_by_overflow_mode := settings.group_by_overflow_mode
    group_by_two_level_threshold :=
      if allow_to_use_two_level_group_by then settings.group_by_two_level_threshold else 0
    group_by_two_level_threshold_bytes :=
      if allow_to_use_two_level_group_by then settings.group_by_two_level_threshold_bytes else 0
    max_bytes_before_external_group_by := settings.max_bytes_before_external_group_by
    empty_result_for_aggregation_by_empty_set := settings.empty_result_for_aggregation_by_empty_set }

/-- `InterpreterSelectQuery::executeAggregation`: apply the
pre-aggregation expression everywhere, then one parallel aggregator over
all chains (several sources) or one plain aggregator over the
concatenation (at most one main and one non-joined chain). -/
def executeAggregation (settings : Settings) (max_streams : Nat) (overflow_row final : Bool)
    (p : Pipeline) : Pipeline :=
  let p := p.transform (.expression · .beforeAggregation)
  let params := aggregationParams settings p.streams.length overflow_row
  let mergeThreads :=
    if settings.aggregation_memory_efficient_merge_threads != 0 then
      settings.aggregation_memory_efficient_merge_threads
    else settings.max_threads
  if p.streams.length > 1 || p.streams_with_non_joined_data.length > 1 then
    { streams := [.parallelAggregating p.streams p.streams_with_non_joined_data params final
        max_streams mergeThreads]
      streams_with_non_joined_data := [] }
  else
    -- the first main chain, if any, then the first non-joined chain, if any
    let inputs := p.streams.take 1 ++ p.streams_with_non_joined_data.take 1
    { streams := [.aggregating (.concat inputs) params final]
      streams_with_non_joined_data := [] }

/-- `InterpreterSelectQuery::executeMergeAggregated`: union-then-merge, or
the bounded-memory multi-way merge, per the memory-efficient setting. -/
def executeMergeAggregated (settings : Settings) (max_streams : Nat) (overflow_row final : Bool)
    (p : Pipeline) : Pipeline :=
  if !settings.distributed_aggregation_memory_efficient then
    let p1 := executeUnion max_streams p
    p1.setFirstStream (.mergingAggregated p1.firstStream overflow_row final settings.max_threads)
  else
    let mergeThreads :=
      if settings.aggregation_memory_efficient_merge_threads != 0 then
        settings.aggregation_memory_efficient_merge_threads
      else settings.max_threads
    { p with streams := [.mergingAggregatedMemoryEfficient p.streams overflow_row final
        max_streams mergeThreads] }

/-- `InterpreterSelectQuery::executeTotalsAndHaving`: collapse to one
chain and wrap it in the totals/having operator. -/
def executeTotalsAndHaving (settings : Settings) (max_streams : Nat) (has_having overflow_row : Bool)
    (p : Pipeline) : Pipeline :=
  let p1 := executeUnion max_streams p
  p1.setFirstStream (.totalsHaving p1.firstStream overflow_row has_having
    settings.totals_mode settings.totals_auto_threshold)

/-- The sort-phase row/byte cap attached to every partial sort. -/
def sortSizeLimits (settings : Settings) : SizeLimits :=
  { max_rows := settings.max_rows_to_sort
    max_bytes := settings.max_bytes_to_sort
    mode := settings.sort_overflow_mode }

/-- `InterpreterSelectQuery::executeOrder`: partial-sort every chain with
the shared description and bound, collapse, then merge-sort the one
remaining chain with the same description and bound. -/
def executeOrder (settings : Settings) (max_streams : Nat) (q : ASTSelectQuery)
    (p : Pipeline) : Pipeline :=
  let order_descr := getSortDescription q
  let limit := getLimitForSorting q
  let p1 := p.transform fun s => .partialSort s order_descr limit (sortSizeLimits settings)
  let p2 := executeUnion max_streams p1
  p2.setFirstStream (.mergeSorting p2.firstStream order_descr settings.max_block_size limit
    settings.max_bytes_before_external_sort)

/-- `InterpreterSelectQuery::executeMergeSorted`: if several chains are
open, wrap each in an asynchronous prefetch and k-way merge them. -/
def executeMergeSorted (settings : Settings) (q : ASTSelectQuery) (p : Pipeline) : Pipeline :=
  let order_descr := getSortDescription q
  let limit := getLimitForSorting q
  if p.hasMoreThanOneStream then
    let p1 := p.transform .asyncStream
    { p1 with streams := [.mergingSorted p1.streams order_descr settings.max_block_size limit] }
  else p

/-- `InterpreterSelectQuery::executeDistinct`: when the query has
DISTINCT, wrap every chain in a distinct operator; the output bound is
`limit_length + limit_offset` when no ORDER BY runs after this pass.
`grouped` abstracts `IBlockInputStream::isGroupedOutput`, which picks the
sorted-input variant. -/
def executeDistinct (settings : Settings) (q : ASTSelectQuery)
    (grouped : BlockInputStream → Bool) (before_order : Bool) (columns : List String)
    (p : Pipeline) : Pipeline :=
  if q.clauses.distinct then
    let lo := getLimitLengthAndOffset q
    let limit_for_distinct :=
      if !q.clauses.order_expression_list.isSome || !before_order then lo.1 + lo.2 else 0
    p.transform fun s =>
      .distinctStream s
        ⟨settings.max_rows_in_distinct, settings.max_bytes_in_distinct,
          settings.distinct_overflow_mode⟩
        limit_for_distinct columns (grouped s)
  else p

/-- `InterpreterSelectQuery::executePreLimit`: a per-chain limit of
`limit_length + limit_offset` with no offset and no read-till-end. -/
def executePreLimit (q : ASTSelectQuery) (p : Pipeline) : Pipeline :=
  let lo := getLimitLengthAndOffset q
  if q.clauses.limit_length.isSome then
    p.transform fun s => .limitStream s (lo.1 + lo.2) 0 false
  else p

/-- `InterpreterSelectQuery::executeLimitBy`: per-group row cap, a no-op
unless both the LIMIT BY value and its expression list are present. -/
def executeLimitBy (q : ASTSelectQuery) (p : Pipeline) : Pipeline :=
  match q.clauses.limit_by_value, q.clauses.limit_by_expression_list with
  | some value, some columns => p.transform fun s => .limitByStream s value columns
  | _, _ => p

/-- `InterpreterSelectQuery::executeLimit`: the final LIMIT; consumption
continues to end-of-stream when WITH TOTALS at this level has no ORDER BY,
or, without WITH TOTALS at this level, some FROM-clause subquery SELECT
has WITH TOTALS. -/
def executeLimit (q : ASTSelectQuery) (p : Pipeline) : Pipeline :=
  let lo := getLimitLengthAndOffset q
  if q.clauses.limit_length.isSome then
    let always_read_till_end :=
      (q.clauses.group_by_with_totals && !q.clauses.order_expression_list.isSome)
      || (!q.clauses.group_by_with_totals && hasWithTotalsInAnySubqueryInFromClause q)
    p.transform fun s => .limitStream s lo.1 lo.2 always_read_till_end
  else p

/-- `InterpreterSelectQuery::executeExtremes`: enable extremes tracking on
every chain when configured. -/
def executeExtremes (settings : Settings) (p : Pipeline) : Pipeline :=
  if !settings.extremes then p
  else p.transform .withExtremes

/-- `InterpreterSelectQuery::executeSubqueriesInSetsAndJoins`: collapse to
one chain and wrap it in the set-materializing operator with the transfer
caps. -/
def executeSubqueriesInSetsAndJoins (settings : Settings) (max_streams : Nat)
    (p : Pipeline) : Pipeline :=
  let p1 := executeUnion max_streams p
  p1.setFirstStream (.creatingSets p1.firstStream
    ⟨settings.max_rows_to_transfer, settings.max_bytes_to_transfer,
      settings.transfer_overflow_mode⟩)

/-- `InterpreterSelectQuery::AnalysisResult`: the control flags the
builder reads (the compiled expression programs themselves are opaque). -/
structure AnalysisResult where
  first_stage : Bool
  second_stage : Bool
  need_aggregate : Bool
  has_join : Bool
  has_where : Bool
  has_having : Bool
  has_order_by : Bool
  has_limit_by : Bool
deriving DecidableEq, Repr

/-- `InterpreterSelectQuery::analyzeExpressions`: the stage flags from the
from/to processing stages, and each step flag from the corresponding
clause (`appendHaving` is reached only under aggregation). `hasAggregation`
abstracts `query_analyzer->hasAggregation()`. -/
def analyzeExpressions (q : ASTSelectQuery) (hasAggregation : Bool)
    (to_stage from_stage : QueryProcessingStage) : AnalysisResult :=
  let first_stage := decide (from_stage < QueryProcessingStage.withMergeableState)
    && decide (QueryProcessingStage.withMergeableState ≤ to_stage)
  let second_stage := decide (from_stage ≤ QueryProcessingStage.withMergeableState)
    && decide (QueryProcessingStage.withMergeableState < to_stage)
  { first_stage := first_stage
    second_stage := second_stage
    need_aggregate := hasAggregation
    has_join := q.clauses.join.isSome
    has_where := q.clauses.where_expression
    has_having := hasAggregation && q.clauses.having_expression
    has_order_by := q.clauses.order_expression_list.isSome
    has_limit_by := q.clauses.limit_by_expression_list.isSome }

/-- The errors the embedded builder can raise. -/
inductive ExecException where
  /-- `TOO_MANY_COLUMNS`: limit for number of columns to read exceeded -/
  | tooManyColumns
  /-- `LOGICAL_ERROR`: zero number of streams requested -/
  | zeroStreamsRequested
  /-- `LOGICAL_ERROR`: nowhere to read -/
  | nowhereToRead
  /-- `NOT_IMPLEMENTED`: Distributed on Distributed is not supported;
  carries the pipeline as it stood when the exception was thrown -/
  | distributedOnDistributed (pipelineAtThrow : Pipeline)

/-- Oracle inputs standing for the builder's collaborators: the expression
analyzer, the resolved storage, and the nested subquery interpreter. -/
structure InterpreterEnv where
  /-- number of required source columns, `getRequiredSourceColumns()`
  after the ALIAS extension of lines 676-694 -/
  requiredColumns : Nat
  /-- ALIAS columns are among the required ones, so `alias_actions` exists -/
  aliasActionsRequired : Bool
  /-- `storage != nullptr` after `init` -/
  hasStorage : Bool
  /-- `storage->isRemote()` -/
  storageIsRemote : Bool
  /-- `storage->read(required_columns, query_info, context, from_stage,
  max_block_size, max_streams)`: reports the stage the storage already
  executed to and the chains it produced -/
  storageRead : Nat → Nat → QueryProcessingStage × List BlockInputStream
  /-- chains of `interpreter_subquery->executeWithMultipleStreams()` -/
  subqueryStreams : List BlockInputStream
  /-- `query_analyzer->hasAggregation()` -/
  hasAggregation : Bool
  /-- `res.selected_columns` of the analysis -/
  selectedColumns : List String
  /-- `IBlockInputStream::isGroupedOutput` of a chain head -/
  groupedOutput : BlockInputStream → Bool
  /-- `query_analyzer->getSubqueriesForSets()` is non-empty -/
  hasSubqueriesForSets : Bool

/-- Lines 757-774 of the source: does the small-LIMIT fetch optimization
apply (no DISTINCT, PREWHERE, WHERE, GROUP BY, HAVING, ORDER BY, LIMIT BY
or aggregation, but a LIMIT with `limit_length + limit_offset` under the
block size)? -/
def limitOptimizationApplies (q : ASTSelectQuery) (hasAggregation : Bool)
    (max_block_size : Nat) : Bool :=
  let lo := getLimitLengthAndOffset q
  !q.clauses.distinct
  && !q.clauses.prewhere_expression
  && !q.clauses.where_expression
  && !q.clauses.group_expression_list
  && !q.clauses.having_expression
  && !q.clauses.order_expression_list.isSome
  && !q.clauses.limit_by_expression_list.isSome
  && q.clauses.limit_length.isSome
  && !hasAggregation
  && decide (lo.1 + lo.2 < max_block_size)

/-- Lines 757-774 of the source: the batch-size hint and stream count
after the small-LIMIT optimization; both collapse when it applies and are
untouched otherwise. -/
def limitOptimization (q : ASTSelectQuery) (hasAggregation : Bool)
    (max_block_size max_streams : Nat) : Nat × Nat :=
  if limitOptimizationApplies q hasAggregation max_block_size then
    ((getLimitLengthAndOffset q).1 + (getLimitLengthAndOffset q).2, 1)
  else (max_block_size, max_streams)

/-- Lines 697-724 of the source: when the FROM clause is a subquery, the
nested interpreter is built over its select list, with WITH TOTALS
ignored in the subquery when the outer query aggregates. -/
def buildSubqueryInterpreter (q : ASTSelectQuery) (hasAggregation : Bool) :
    Option SelectUnionList :=
  match q.tableExpr with
  | .subquery sl => some (if hasAggregation then ignoreWithTotalsUnion sl else sl)
  | _ => none

/-- The read-phase caps attached to fetched chains. -/
def readSizeLimits (settings : Settings) : SizeLimits :=
  { max_rows := settings.max_rows_to_read
    max_bytes := settings.max_bytes_to_read
    mode := settings.read_overflow_mode }

/-- The part of `InterpreterSelectQuery::executeFetchColumns` after the
column-cap check: populate the pipeline from the prepared input, the
subquery interpreter, or the storage, then apply the alias actions when
the data is still at the FetchColumns stage. Returns the pipeline, the
stage the data already reached, and the (possibly adjusted) `max_streams`
member. -/
def executeFetchColumnsTail (env : InterpreterEnv) (settings : Settings)
    (to_stage : QueryProcessingStage) (q : ASTSelectQuery) (dry_run : Bool)
    (p : Pipeline) :
    Except ExecException (Pipeline × QueryProcessingStage × Nat) :=
  let interpreter_subquery := buildSubqueryInterpreter q env.hasAggregation
  let max_streams := settings.max_threads
  let is_remote := env.hasStorage && env.storageIsRemote
  let max_streams := if is_remote then settings.max_distributed_connections else max_streams
  let mbms := limitOptimization q env.hasAggregation settings.max_block_size max_streams
  let max_block_size := mbms.1
  let max_streams := mbms.2
  -- aliases in table declaration (lines 938-944), shared by all branches
  let finish := fun (p1 : Pipeline) (from_stage : QueryProcessingStage) (ms : Nat) =>
    let p2 :=
      if from_stage == QueryProcessingStage.fetchColumns && env.aliasActionsRequired then
        p1.transform (.expression · .aliasActions)
      else p1
    Except.ok (p2, from_stage, ms)
  if !p.streams.isEmpty then
    -- prepared input
    finish p .fetchColumns max_streams
  else if interpreter_subquery.isSome then
    -- subquery
    let streams := if !dry_run then env.subqueryStreams else [.nullSource]
    finish { p with streams := streams } .fetchColumns max_streams
  else if env.hasStorage then
    -- table
    if max_streams == 0 then .error .zeroStreamsRequested
    else
      let max_streams :=
        if max_streams > 1 && !is_remote then
          max_streams * settings.max_streams_to_max_threads_ratio
        else max_streams
      let rs :=
        if !dry_run then env.storageRead max_block_size max_streams
        else (QueryProcessingStage.fetchColumns, [])
      let streams := if rs.2.isEmpty then [.nullSource] else rs.2
      -- set the limits and quota for reading data
      let streams := streams.map
        (.withLimits · (readSizeLimits settings) (to_stage == .complete))
      finish { p with streams := streams } rs.1 max_streams
  else .error .nowhereToRead

/-- `InterpreterSelectQuery::executeFetchColumns`: the column-cap check
(skipped in dry-run mode), then the fetch itself. -/
def executeFetchColumns (env : InterpreterEnv) (settings : Settings)
    (to_stage : QueryProcessingStage) (q : ASTSelectQuery) (dry_run : Bool)
    (p : Pipeline) :
    Except ExecException (Pipeline × QueryProcessingStage × Nat) :=
  if !dry_run && settings.max_columns_to_read != 0
      && decide (env.requiredColumns > settings.max_columns_to_read) then
    .error .tooManyColumns
  else executeFetchColumnsTail env settings to_stage q dry_run p

/-- `InterpreterSelectQuery::executeImpl`: fetch, reject the
remote-to-remote stage pair, analyze, then wire the first-stage and
second-stage operators and the set-subquery materialization. -/
def executeImpl (env : InterpreterEnv) (settings : Settings)
    (to_stage : QueryProcessingStage) (q : ASTSelectQuery)
    (input : Option BlockInputStream) (dry_run : Bool) :
    Except ExecException Pipeline := do
  let p : Pipeline := { streams := input.toList, streams_with_non_joined_data := [] }
  let (p, from_stage, max_streams) ← executeFetchColumns env settings to_stage q dry_run p
  if from_stage == QueryProcessingStage.withMergeableState
      && to_stage == QueryProcessingStage.withMergeableState then
    throw (.distributedOnDistributed p)
  let expressions := analyzeExpressions q env.hasAggregation to_stage from_stage
  let aggregate_overflow_row :=
    expressions.need_aggregate
    && q.clauses.group_by_with_totals
    && settings.max_rows_to_group_by != 0
    && settings.group_by_overflow_mode == OverflowMode.anyRow
    && settings.totals_mode != TotalsMode.afterHavingExclusive
  let aggregate_final :=
    expressions.need_aggregate
    && decide (QueryProcessingStage.withMergeableState < to_stage)
    && !q.clauses.group_by_with_totals
  let p :=
    if decide (QueryProcessingStage.fetchColumns < to_stage) then
      let p :=
        if expressions.first_stage then
          let p :=
            if expressions.has_join then
              let p :=
                match q.clauses.join with
                | some .full | some .right =>
                  { p with streams_with_non_joined_data :=
                      p.streams_with_non_joined_data ++ [BlockInputStream.nonJoinedSource] }
                | _ => p
              -- applies to all sources except streams_with_non_joined_data
              { p with streams := p.streams.map (.expression · .beforeJoin) }
            else p
          let p := if expressions.has_where then executeWhere p else p
          let p :=
            if expressions.need_aggregate then
              executeAggregation settings max_streams aggregate_overflow_row aggregate_final p
            else
              executeDistinct settings q env.groupedOutput true env.selectedColumns
                (executeExpression .beforeOrderAndSelect p)
          -- preliminary sort and limit pushed down to the remote stage
          if !expressions.second_stage && !expressions.need_aggregate
              && !expressions.has_having then
            let p :=
              if expressions.has_order_by then executeOrder settings max_streams q p else p
            let p :=
              if expressions.has_order_by && q.clauses.limit_length.isSome then
                executeDistinct settings q env.groupedOutput false env.selectedColumns p
              else p
            if q.clauses.limit_length.isSome then executePreLimit q p else p
          else p
        else p
      if expressions.second_stage then
        let (p, need_second_distinct_pass) :=
          if expressions.need_aggregate then
            let p :=
              if !expressions.first_stage then
                executeMergeAggregated settings max_streams aggregate_overflow_row
                  aggregate_final p
              else p
            let p :=
              if !aggregate_final then
                executeTotalsAndHaving settings max_streams expressions.has_having
                  aggregate_overflow_row p
              else if expressions.has_having then executeHaving p
              else p
            let p := executeExpression .beforeOrderAndSelect p
            let p := executeDistinct settings q env.groupedOutput true env.selectedColumns p
            (p, q.clauses.distinct && p.hasMoreThanOneStream)
          else
            let need := q.clauses.distinct && p.hasMoreThanOneStream
            let p :=
              if q.clauses.group_by_with_totals && !aggregate_final then
                executeTotalsAndHaving settings max_streams false aggregate_overflow_row p
              else p
            (p, need)
        let p :=
          if expressions.has_order_by then
            if !expressions.first_stage && !expressions.need_aggregate
                && !(q.clauses.group_by_with_totals && !aggregate_final) then
              executeMergeSorted settings q p
            else executeOrder settings max_streams q p
          else p
        let p :=
          if q.clauses.limit_length.isSome && p.hasMoreThanOneStream
              && !q.clauses.distinct && !expressions.has_limit_by
              && !settings.extremes then
            executePreLimit q p
          else p
        let need_merge_streams :=
          need_second_distinct_pass
          || q.clauses.limit_length.isSome
          || q.clauses.limit_by_expression_list.isSome
          || !p.streams_with_non_joined_data.isEmpty
        let p := if need_merge_streams then executeUnion max_streams p else p
        let p :=
          if need_second_distinct_pass then
            executeDistinct settings q env.groupedOutput false env.selectedColumns p
          else p
        let p :=
          if expressions.has_limit_by then
            executeLimitBy q (executeExpression .beforeLimitBy p)
          else p
        let p := executeProjection p
        let p := executeExtremes settings p
        executeLimit q p
      else p
    else p
  let p :=
    if env.hasSubqueriesForSets then executeSubqueriesInSetsAndJoins settings max_streams p
    else p
  return p

/-- The output bound of a distinct operator head, if the chain head is
one. -/
def BlockInputStream.distinctBound : BlockInputStream → Option Nat
  | .distinctStream _ _ l _ _ => some l
  | _ => none

/-- The (length, offset, read-till-end) of a limit operator head, if the
chain head is one. -/
def BlockInputStream.limitInfo : BlockInputStream → Option (Nat × Nat × Bool)
  | .limitStream _ len off flag => some (len, off, flag)
  | _ => none

/-- The two-level thresholds given to an aggregator head, if the chain
head is one. -/
def BlockInputStream.aggTwoLevelThresholds : BlockInputStream → Option (Nat × Nat)
  | .aggregating _ pr _ =>
    some (pr.group_by_two_level_threshold, pr.group_by_two_level_threshold_bytes)
  | .parallelAggregating _ _ pr _ _ _ =>
    some (pr.group_by_two_level_threshold, pr.group_by_two_level_threshold_bytes)
  | _ => none

mutual
/-- Every (sort description, row bound) pair carried by a sort operator
anywhere in the chain. -/
def BlockInputStream.sortAnnotations :
    BlockInputStream → List (List SortColumnDescription × Nat)
  | .source _ => []
  | .nullSource => []
  | .nonJoinedSource => []
  | .withLimits s _ _ => s.sortAnnotations
  | .expression s _ => s.sortAnnotations
  | .filter s _ => s.sortAnnotations
  | .aggregating s _ _ => s.sortAnnotations
  | .parallelAggregating ss nj _ _ _ _ => sortAnnotationsList ss ++ sortAnnotationsList nj
  | .concat ss => sortAnnotationsList ss
  | .mergingAggregated s _ _ _ => s.sortAnnotations
  | .mergingAggregatedMemoryEfficient ss _ _ _ _ => sortAnnotationsList ss
  | .totalsHaving s _ _ _ _ => s.sortAnnotations
  | .partialSort s d l _ => (d, l) :: s.sortAnnotations
  | .mergeSorting s d _ l _ => (d, l) :: s.sortAnnotations
  | .asyncStream s => s.sortAnnotations
  | .mergingSorted ss d _ l => (d, l) :: sortAnnotationsList ss
  | .distinctStream s _ _ _ _ => s.sortAnnotations
  | .unionStream ss nj _ => sortAnnotationsList ss ++ sortAnnotationsList nj
  | .limitStream s _ _ _ => s.sortAnnotations
  | .limitByStream s _ _ => s.sortAnnotations
  | .withExtremes s => s.sortAnnotations
  | .creatingSets s _ => s.sortAnnotations

/-- `sortAnnotations` over a list of chains. -/
def sortAnnotationsList :
    List BlockInputStream → List (List SortColumnDescription × Nat)
  | [] => []
  | s :: rest => s.sortAnnotations ++ sortAnnotationsList rest
end

/-- A concrete settings record for the concrete-input theorems below. -/
def wSettings : Settings :=
  { max_block_size := 65536
    max_threads := 4
    max_distributed_connections := 8
    max_streams_to_max_threads_ratio := 1
    max_columns_to_read := 0
    max_rows_to_read := 0
    max_bytes_to_read := 0
    read_overflow_mode := .throwError
    max_rows_to_group_by := 0
    group_by_overflow_mode := .throwError
    group_by_two_level_threshold := 100000
    group_by_two_level_threshold_bytes := 50000000
    max_bytes_before_external_group_by := 0
    empty_result_for_aggregation_by_empty_set := false
    aggregation_memory_efficient_merge_threads := 0
    distributed_aggregation_memory_efficient := false
    totals_mode := .afterHavingExclusive
    totals_auto_threshold := 2
    max_rows_to_sort := 0
    max_bytes_to_sort := 0
    sort_overflow_mode := .throwError
    max_bytes_before_external_sort := 0
    max_rows_in_distinct := 0
    max_bytes_in_distinct := 0
    distinct_overflow_mode := .throwError
    max_rows_to_transfer := 0
    max_bytes_to_transfer := 0
    transfer_overflow_mode := .throwError
    extremes := false }

/-- A query with every clause absent. -/
def emptyClauses : QueryClauses :=
  { distinct := false
    group_by_with_totals := false
    prewhere_expression := false
    where_expression := false
    group_expression_list := false
    having_expression := false
    join := none
    order_expression_list := none
    limit_by_expression_list := none
    limit_by_value := none
    limit_length := none
    limit_offset := none }

/-- A one-column ORDER BY element. -/
def wOrderElem : OrderByElement :=
  { columnName := "v", direction := 1, nullsDirection := 1, collation := none }

/-- A pipeline holding one fetched chain. -/
def onePipeline : Pipeline :=
  { streams := [.source 0], streams_with_non_joined_data := [] }

/-- A pipeline holding two fetched chains. -/
def twoPipeline : Pipeline :=
  { streams := [.source 0, .source 1], streams_with_non_joined_data := [] }

/-- SELECT DISTINCT ... ORDER BY v LIMIT 5 OFFSET 2. -/
def distinctOrderLimitQuery : ASTSelectQuery :=
  .mk { emptyClauses with
        distinct := true
        order_expression_list := some [wOrderElem]
        limit_length := some 5
        limit_offset := some 2 }
    .noTable

/-- SELECT ... ORDER BY v LIMIT 3 OFFSET 1 (no DISTINCT, no LIMIT BY). -/
def orderLimitQuery : ASTSelectQuery :=
  .mk { emptyClauses with
        order_expression_list := some [wOrderElem]
        limit_length := some 3
        limit_offset := some 1 }
    .noTable

/-- SELECT ... LIMIT 5 OFFSET 2 with no other clause. -/
def bareLimitQuery : ASTSelectQuery :=
  .mk { emptyClauses with limit_length := some 5, limit_offset := some 2 } .noTable

/-- An inner SELECT with WITH TOTALS and its own ORDER BY. -/
def innerTotalsOrderQuery : ASTSelectQuery :=
  .mk { emptyClauses with
        group_by_with_totals := true
        order_expression_list := some [wOrderElem] }
    .noTable

/-- SELECT ... LIMIT 5 with a FROM-clause subquery whose single SELECT has
WITH TOTALS and its own ORDER BY. -/
def limitOverTotalsSubquery : ASTSelectQuery :=
  .mk { emptyClauses with limit_length := some 5 }
    (.subquery (.cons innerTotalsOrderQuery .nil))

/-- An environment whose storage is remote and reports WithMergeableState
with one result chain. -/
def remoteEnv : InterpreterEnv :=
  { requiredColumns := 1
    aliasActionsRequired := false
    hasStorage := true
    storageIsRemote := true
    storageRead := fun _ _ => (.withMergeableState, [.source 0])
    subqueryStreams := []
    hasAggregation := false
    selectedColumns := []
    groupedOutput := fun _ => false
    hasSubqueriesForSets := false }

/-- SELECT ... FROM db.t with no clauses. -/
def bareTableQuery : ASTSelectQuery :=
  .mk emptyClauses (.table "db" "t")

/-- Settings whose two-level thresholds are configured to zero while the
external-spill byte threshold is set. -/
def zeroThresholdSettings : Settings :=
  { wSettings with
    group_by_two_level_threshold := 0
    group_by_two_level_threshold_bytes := 0
    max_bytes_before_external_group_by := 1 }

/-- The pipeline that the fetch over `remoteEnv` produces: the one
storage chain decorated with the read caps. -/
def remoteFetchPipeline : Pipeline :=
  { streams := [.withLimits (.source 0) (readSizeLimits wSettings) false]
    streams_with_non_joined_data := [] }

mutual
/-- Stated from the claim's words, for comparison with the source's
`hasWithTotalsInAnySubqueryInFromClause`: some SELECT in the FROM-clause
subquery chain has WITH TOTALS without its own ORDER BY. -/
def specTotalsNoOrderInSelect : ASTSelectQuery → Bool
  | .mk c t =>
    (c.group_by_with_totals && !c.order_expression_list.isSome)
    || specTotalsNoOrderInFrom t

def specTotalsNoOrderInFrom : TableExpression → Bool
  | .subquery sl => specTotalsNoOrderInList sl
  | _ => false

def specTotalsNoOrderInList : SelectUnionList → Bool
  | .nil => false
  | .cons q rest => specTotalsNoOrderInSelect q || specTotalsNoOrderInList rest
end

/-- Stated from the claim's words: the read-till-end flag as the claim
describes it - WITH TOTALS here without ORDER BY, or no WITH TOTALS here
but some FROM-chain SELECT with WITH TOTALS and no ORDER BY of its own. -/
def specAlwaysReadTillEnd (q : ASTSelectQuery) : Bool :=
  (q.clauses.group_by_with_totals && !q.clauses.order_expression_list.isSome)
  || (!q.clauses.group_by_with_totals && specTotalsNoOrderInFrom q.tableExpr)

/-- C1: for every pair of processing stages, `analyzeExpressions` sets
`first_stage` to true iff `from_stage < WithMergeableState` and
`to_stage >= WithMergeableState`, and sets `second_stage` to true iff
`from_stage <= WithMergeableState` and `to_stage > WithMergeableState`. -/
theorem analyzeExpressions_stage_flags (q : ASTSelectQuery) (hasAgg : Bool)
    (from_stage to_stage : QueryProcessingStage) :
    ((analyzeExpressions q hasAgg to_stage from_stage).first_stage = true ↔
      (from_stage < QueryProcessingStage.withMergeableState ∧
        QueryProcessingStage.withMergeableState ≤ to_stage)) ∧
    ((analyzeExpressions q hasAgg to_stage from_stage).second_stage = true ↔
      (from_stage ≤ QueryProcessingStage.withMergeableState ∧
        QueryProcessingStage.withMergeableState < to_stage)) := by
  cases from_stage <;> cases to_stage <;> simp [analyzeExpressions]

/-- Case characterization of `executeUnion`, shared by the proofs below. -/
theorem executeUnion_eq (max_streams : Nat) (p : Pipeline) :
    executeUnion max_streams p =
      if p.streams.length + p.streams_with_non_joined_data.length = 0 then p
      else if p.streams.length + p.streams_with_non_joined_data.length = 1 then
        (if p.streams.length = 1 then p
         else { streams := p.streams_with_non_joined_data
                streams_with_non_joined_data := [] })
      else
        { streams := [.unionStream p.streams p.streams_with_non_joined_data max_streams]
          streams_with_non_joined_data := [] } := by
  unfold executeUnion
  rcases h : p.streams.length + p.streams_with_non_joined_data.length with _ | _ | n <;>
    simp [h]

/-- C5: `executeUnion` splits on the total chain count: 0 chains is a
no-op; 1 chain is a no-op except that a single non-matched-row chain is
folded into the main collection; 2 or more chains are replaced by a
single union operator; and after any collapse on a non-empty pipeline
exactly one chain remains with the side channel empty. -/
theorem executeUnion_case_split (max_streams : Nat) (p : Pipeline) :
    (p.streams.length + p.streams_with_non_joined_data.length = 0 →
      executeUnion max_streams p = p) ∧
    (p.streams.length + p.streams_with_non_joined_data.length = 1 →
      (p.streams.length = 1 → executeUnion max_streams p = p) ∧
      (p.streams = [] →
        (executeUnion max_streams p).streams = p.streams_with_non_joined_data ∧
        (executeUnion max_streams p).streams_with_non_joined_data = [])) ∧
    (2 ≤ p.streams.length + p.streams_with_non_joined_data.length →
      (executeUnion max_streams p).streams =
        [.unionStream p.streams p.streams_with_non_joined_data max_streams] ∧
      (executeUnion max_streams p).streams_with_non_joined_data = []) ∧
    (1 ≤ p.streams.length + p.streams_with_non_joined_data.length →
      (executeUnion max_streams p).streams.length = 1 ∧
      (executeUnion max_streams p).streams_with_non_joined_data = []) := by
  rw [executeUnion_eq]
  constructor
  · intro h0; simp [h0]
  constructor
  · intro h1
    constructor
    · intro hs
      have hnj : p.streams_with_non_joined_data = [] :=
        List.length_eq_zero.mp (by omega)
      simp [h1, hs, hnj]
    · intro hs
      have hs0 : p.streams.length = 0 := by simp [hs]
      have hnj : p.streams_with_non_joined_data.length = 1 := by omega
      simp [h1, hs, hs0, hnj]
  constructor
  · intro h2
    have hne0 : p.streams.length + p.streams_with_non_joined_data.length ≠ 0 := by omega
    have hne1 : p.streams.length + p.streams_with_non_joined_data.length ≠ 1 := by omega
    simp [hne0, hne1]
  · intro h1
    by_cases hone : p.streams.length + p.streams_with_non_joined_data.length = 1
    · by_cases hs1 : p.streams.length = 1
      · have hnj : p.streams_with_non_joined_data = [] :=
          List.length_eq_zero.mp (by omega)
        simp [hone, hs1, hnj]
      · have hnj1 : p.streams_with_non_joined_data.length = 1 := by omega
        rw [if_neg (by omega :
              ¬(p.streams.length + p.streams_with_non_joined_data.length = 0)),
          if_pos hone, if_neg hs1]
        exact ⟨hnj1, rfl⟩
    · have hne0 : p.streams.length + p.streams_with_non_joined_data.length ≠ 0 := by omega
      simp [hne0, hone]

/-- Concrete check of the union collapse: two chains become one union
operator and the side channel ends empty. -/
theorem executeUnion_case_split_witness :
    (executeUnion 4 twoPipeline).streams =
      [.unionStream twoPipeline.streams twoPipeline.streams_with_non_joined_data 4] ∧
    (executeUnion 4 twoPipeline).streams_with_non_joined_data = [] :=
  (executeUnion_case_split 4 twoPipeline).2.2.1 (by simp [twoPipeline])

/-- C4 (amended): `executeAggregation` always builds exactly one
aggregator; the two-level thresholds it passes are the configured ones
when the pipeline holds more than one stream or the external-spill byte
threshold is non-zero, and zero otherwise. So non-zero thresholds reach
the aggregator only when the trigger holds AND the configured values are
themselves non-zero. -/
theorem executeAggregation_twoLevel (settings : Settings) (max_streams : Nat)
    (overflow_row final : Bool) (p : Pipeline) :
    (executeAggregation settings max_streams overflow_row final p).streams.map
      BlockInputStream.aggTwoLevelThresholds =
    [some
      (if p.streams.length > 1 || settings.max_bytes_before_external_group_by != 0
        then settings.group_by_two_level_threshold else 0,
       if p.streams.length > 1 || settings.max_bytes_before_external_group_by != 0
        then settings.group_by_two_level_threshold_bytes else 0)] := by
  unfold executeAggregation aggregationParams
  by_cases hpar : (p.transform (.expression · .beforeAggregation)).streams.length > 1
      || (p.transform (.expression · .beforeAggregation)).streams_with_non_joined_data.length > 1 <;>
    simp only [Pipeline.transform, List.length_map] at hpar ⊢ <;>
    simp [hpar, BlockInputStream.aggTwoLevelThresholds]

/-- C4 counterexample to the claim as stated: with the two-level
thresholds configured to zero and the external-spill byte threshold set,
the trigger holds yet the thresholds passed to the aggregator are both
zero, so the bucketed strategy is not enabled. -/
theorem executeAggregation_twoLevel_counterexample :
    ((executeAggregation zeroThresholdSettings 4 false true onePipeline).streams.map
      BlockInputStream.aggTwoLevelThresholds = [some (0, 0)]) ∧
    (onePipeline.streams.length > 1 ∨
      zeroThresholdSettings.max_bytes_before_external_group_by ≠ 0) := by
  exact ⟨rfl, Or.inr (by decide)⟩

/-- C3 (amended): when the query has DISTINCT, every distinct operator
built by `executeDistinct` carries the bound
`limit_length + limit_offset` exactly when no ORDER BY runs after this
pass (the query has no ORDER BY, or the pass is the one after sorting);
when the pass precedes a present ORDER BY the bound is 0 (unbounded). -/
theorem executeDistinct_bound (settings : Settings) (q : ASTSelectQuery)
    (grouped : BlockInputStream → Bool) (before_order : Bool) (columns : List String)
    (p : Pipeline) (hd : q.clauses.distinct = true) :
    ∀ s ∈ (executeDistinct settings q grouped before_order columns p).streams,
      s.distinctBound = some
        (if q.clauses.order_expression_list.isSome && before_order then 0
         else (getLimitLengthAndOffset q).1 + (getLimitLengthAndOffset q).2) := by
  intro s hs
  unfold executeDistinct at hs
  rw [hd] at hs
  simp only [if_pos] at hs
  simp only [Pipeline.transform, List.mem_map] at hs
  obtain ⟨x, _, hx⟩ := hs
  subst hx
  simp only [BlockInputStream.distinctBound]
  by_cases ho : q.clauses.order_expression_list.isSome <;>
    cases before_order <;> simp [ho]

/-- C3 counterexample to the claim as stated: SELECT DISTINCT with ORDER
BY and LIMIT 5 OFFSET 2, on the pass that precedes ORDER BY
(`before_order = true`): the claim predicts a bound of 7, but the distinct
operator is built unbounded (0). -/
theorem executeDistinct_bound_counterexample :
    ((executeDistinct wSettings distinctOrderLimitQuery (fun _ => false) true ["v"]
        onePipeline).streams.map BlockInputStream.distinctBound = [some 0]) ∧
    getLimitLengthAndOffset distinctOrderLimitQuery = (5, 2) :=
  ⟨rfl, rfl⟩

/-- Concrete check of the amended C3 theorem on the same query: on the
pre-ORDER-BY pass the one distinct operator built is unbounded (0). -/
theorem executeDistinct_bound_witness :
    (BlockInputStream.distinctStream (.source 0)
        ⟨wSettings.max_rows_in_distinct, wSettings.max_bytes_in_distinct,
          wSettings.distinct_overflow_mode⟩ 0 ["v"] false).distinctBound =
      some
        (if distinctOrderLimitQuery.clauses.order_expression_list.isSome && true then 0
         else (getLimitLengthAndOffset distinctOrderLimitQuery).1 +
           (getLimitLengthAndOffset distinctOrderLimitQuery).2) :=
  executeDistinct_bound wSettings distinctOrderLimitQuery (fun _ => false) true ["v"]
    onePipeline rfl
    (BlockInputStream.distinctStream (.source 0)
      ⟨wSettings.max_rows_in_distinct, wSettings.max_bytes_in_distinct,
        wSettings.distinct_overflow_mode⟩ 0 ["v"] false)
    (List.Mem.head _)

/-- C7 (amended): when the query has a LIMIT, every limit operator built
by `executeLimit` carries the read-till-end flag exactly when the query
itself has WITH TOTALS and no ORDER BY, or has no WITH TOTALS but some
SELECT in its FROM-clause subquery chain has WITH TOTALS - regardless of
whether that subquery has an ORDER BY of its own. -/
theorem executeLimit_readTillEnd (q : ASTSelectQuery) (p : Pipeline)
    (hl : q.clauses.limit_length.isSome = true) :
    ∀ s ∈ (executeLimit q p).streams,
      s.limitInfo = some ((getLimitLengthAndOffset q).1, (getLimitLengthAndOffset q).2,
        (q.clauses.group_by_with_totals && !q.clauses.order_expression_list.isSome)
        || (!q.clauses.group_by_with_totals && hasWithTotalsInFromTable q.tableExpr)) := by
  intro s hs
  unfold executeLimit at hs
  rw [hl] at hs
  simp only [if_true, Pipeline.transform, List.mem_map] at hs
  obtain ⟨x, _, hx⟩ := hs
  subst hx
  simp only [BlockInputStream.limitInfo, Option.some.injEq]
  obtain ⟨c, t⟩ := q
  cases hts : c.group_by_with_totals <;>
    simp [hasWithTotalsInAnySubqueryInFromClause, ASTSelectQuery.clauses,
      ASTSelectQuery.tableExpr, hts]

/-- C7 counterexample to the claim as stated: an outer LIMIT 5 query
without WITH TOTALS over a FROM subquery whose SELECT has WITH TOTALS
with its own ORDER BY. The claim predicts no read-till-end flag, but the
built limit operator has it set. -/
theorem executeLimit_readTillEnd_counterexample :
    ((executeLimit limitOverTotalsSubquery onePipeline).streams.map
      BlockInputStream.limitInfo = [some (5, 0, true)]) ∧
    specAlwaysReadTillEnd limitOverTotalsSubquery = false :=
  ⟨rfl, rfl⟩

/-- Concrete check of the amended C7 theorem: the one limit operator
built over the same query has its read-till-end flag set by the
FROM-chain WITH TOTALS alone. -/
theorem executeLimit_readTillEnd_witness :
    (BlockInputStream.limitStream (.source 0) 5 0 true).limitInfo =
      some ((getLimitLengthAndOffset limitOverTotalsSubquery).1,
        (getLimitLengthAndOffset limitOverTotalsSubquery).2,
        (limitOverTotalsSubquery.clauses.group_by_with_totals &&
          !limitOverTotalsSubquery.clauses.order_expression_list.isSome)
        || (!limitOverTotalsSubquery.clauses.group_by_with_totals &&
          hasWithTotalsInFromTable limitOverTotalsSubquery.tableExpr)) :=
  executeLimit_readTillEnd limitOverTotalsSubquery onePipeline rfl
    (BlockInputStream.limitStream (.source 0) 5 0 true) (List.Mem.head _)

/-- C8: with no DISTINCT, PREWHERE, WHERE, GROUP BY, HAVING, ORDER BY,
LIMIT BY or aggregation, but a LIMIT with `limit_length + limit_offset`
below the configured block size, the fetch collapses the batch-size hint
to `limit_length + limit_offset` and forces the stream count to 1; when
any of those clauses is present both keep their incoming values. -/
theorem limitOptimization_collapse (q : ASTSelectQuery) (hasAgg : Bool)
    (max_block_size max_streams : Nat) :
    ((q.clauses.distinct = false ∧ q.clauses.prewhere_expression = false ∧
      q.clauses.where_expression = false ∧ q.clauses.group_expression_list = false ∧
      q.clauses.having_expression = false ∧ q.clauses.order_expression_list = none ∧
      q.clauses.limit_by_expression_list = none ∧ hasAgg = false ∧
      q.clauses.limit_length.isSome = true ∧
      (getLimitLengthAndOffset q).1 + (getLimitLengthAndOffset q).2 < max_block_size) →
      limitOptimization q hasAgg max_block_size max_streams =
        ((getLimitLengthAndOffset q).1 + (getLimitLengthAndOffset q).2, 1)) ∧
    ((q.clauses.distinct = true ∨ q.clauses.prewhere_expression = true ∨
      q.clauses.where_expression = true ∨ q.clauses.group_expression_list = true ∨
      q.clauses.having_expression = true ∨ q.clauses.order_expression_list.isSome = true ∨
      q.clauses.limit_by_expression_list.isSome = true) →
      limitOptimization q hasAgg max_block_size max_streams =
        (max_block_size, max_streams)) := by
  constructor
  · rintro ⟨h1, h2, h3, h4, h5, h6, h7, h8, h9, h10⟩
    unfold limitOptimization limitOptimizationApplies
    simp [h1, h2, h3, h4, h5, h6, h7, h8, h9, h10]
  · intro h
    unfold limitOptimization limitOptimizationApplies
    rcases h with h | h | h | h | h | h | h <;> simp [h]

/-- Concrete check of the C8 collapse: LIMIT 5 OFFSET 2 with no other
clause under a 65536 block size collapses the hint to 7 and the stream
count to 1. -/
theorem limitOptimization_collapse_witness :
    limitOptimization bareLimitQuery false 65536 4 =
      ((getLimitLengthAndOffset bareLimitQuery).1 +
        (getLimitLengthAndOffset bareLimitQuery).2, 1) :=
  (limitOptimization_collapse bareLimitQuery false 65536 4).1
    ⟨rfl, rfl, rfl, rfl, rfl, rfl, rfl, rfl, rfl, by decide⟩

/-- The storage branch of the fetch tail yields either the zero-streams
error or a success, never the column-cap error. -/
theorem storageBranch_ne_tooMany {α : Type} (c : Prop) [Decidable c] (x : α) :
    (if c then Except.error ExecException.zeroStreamsRequested else Except.ok x) ≠
      Except.error ExecException.tooManyColumns := by
  split
  · exact fun h => nomatch h
  · exact fun h => nomatch h

set_option maxHeartbeats 1600000 in
/-- The fetch tail never reports the column-cap error: its only errors
are the zero-streams and nowhere-to-read ones. -/
theorem executeFetchColumnsTail_ne_tooMany (env : InterpreterEnv) (settings : Settings)
    (to_stage : QueryProcessingStage) (q : ASTSelectQuery) (dry_run : Bool)
    (p : Pipeline) :
    executeFetchColumnsTail env settings to_stage q dry_run p ≠
      .error ExecException.tooManyColumns := by
  unfold executeFetchColumnsTail
  dsimp only
  split
  · exact fun h => nomatch h
  · split
    · exact fun h => nomatch h
    · split
      · exact storageBranch_ne_tooMany _ _
      · exact fun h => nomatch h

/-- C9: `executeFetchColumns` raises TooManyColumns exactly when it is
not in dry-run mode, the `max_columns_to_read` cap is non-zero, and the
required source column count exceeds the cap; in dry-run mode it never
raises this error. -/
theorem executeFetchColumns_tooManyColumns (env : InterpreterEnv) (settings : Settings)
    (to_stage : QueryProcessingStage) (q : ASTSelectQuery) (dry_run : Bool)
    (p : Pipeline) :
    executeFetchColumns env settings to_stage q dry_run p =
        .error ExecException.tooManyColumns ↔
      (dry_run = false ∧ settings.max_columns_to_read ≠ 0 ∧
        env.requiredColumns > settings.max_columns_to_read) := by
  unfold executeFetchColumns
  by_cases hc : (!dry_run && settings.max_columns_to_read != 0
      && decide (env.requiredColumns > settings.max_columns_to_read)) = true
  · rw [if_pos hc]
    simp only [Bool.and_eq_true, bne_iff_ne, Bool.not_eq_true', decide_eq_true_eq] at hc
    exact iff_of_true rfl ⟨hc.1.1, hc.1.2, hc.2⟩
  · rw [if_neg hc]
    constructor
    · intro h
      exact absurd h (executeFetchColumnsTail_ne_tooMany env settings to_stage q dry_run p)
    · rintro ⟨hd, hcap, hgt⟩
      exact absurd (by simp [hd, hcap, hgt]) hc

/-- Annotation collection distributes over list append. -/
theorem sortAnnotationsList_append (a b : List BlockInputStream) :
    sortAnnotationsList (a ++ b) = sortAnnotationsList a ++ sortAnnotationsList b := by
  induction a with
  | nil => rfl
  | cons s rest ih => simp [sortAnnotationsList, ih]

/-- Wrapping annotation-free chains in partial sorts yields exactly one
annotation per chain, the shared one. -/
theorem sortAnnotationsList_map_partialSort (d : List SortColumnDescription)
    (lim : Nat) (lims : SizeLimits) (ss : List BlockInputStream)
    (hclean : ∀ s ∈ ss, s.sortAnnotations = []) :
    sortAnnotationsList (ss.map fun s => .partialSort s d lim lims) =
      ss.map fun _ => (d, lim) := by
  induction ss with
  | nil => rfl
  | cons s rest ih =>
    simp only [List.map_cons, sortAnnotationsList, BlockInputStream.sortAnnotations]
    rw [hclean s (by simp), ih fun x hx => hclean x (by simp [hx])]
    rfl

/-- C6: the sorting bound equals `limit_length + limit_offset` exactly
when the query has a LIMIT and neither DISTINCT nor LIMIT BY, and 0
(unbounded) otherwise; one `executeOrder` invocation gives its merge-sort
operator and every partial-sort operator (one per incoming chain) the
identical sort description and identical bound. -/
theorem executeOrder_shared_bound (settings : Settings) (max_streams : Nat)
    (q : ASTSelectQuery) (p : Pipeline)
    (hclean : ∀ s ∈ p.streams ++ p.streams_with_non_joined_data,
      s.sortAnnotations = []) :
    (getLimitForSorting q =
      if q.clauses.limit_length.isSome && !q.clauses.distinct
          && !q.clauses.limit_by_expression_list.isSome then
        (getLimitLengthAndOffset q).1 + (getLimitLengthAndOffset q).2
      else 0) ∧
    ∃ inner,
      (executeOrder settings max_streams q p).streams =
        [.mergeSorting inner (getSortDescription q) settings.max_block_size
          (getLimitForSorting q) settings.max_bytes_before_external_sort] ∧
      inner.sortAnnotations.length =
        p.streams.length + p.streams_with_non_joined_data.length ∧
      ∀ a ∈ inner.sortAnnotations, a = (getSortDescription q, getLimitForSorting q) := by
  constructor
  · rcases hll : q.clauses.limit_length with _ | len <;>
      cases hd : q.clauses.distinct <;>
      rcases hlb : q.clauses.limit_by_expression_list with _ | cols <;>
      simp [getLimitForSorting, getLimitLengthAndOffset, hll, hd, hlb]
  · have hcs : ∀ s ∈ p.streams, s.sortAnnotations = [] := fun s hs =>
      hclean s (by simp [hs])
    have hcn : ∀ s ∈ p.streams_with_non_joined_data, s.sortAnnotations = [] := fun s hs =>
      hclean s (by simp [hs])
    unfold executeOrder
    dsimp only
    rw [executeUnion_eq]
    simp only [Pipeline.transform, List.length_map]
    by_cases h0 : p.streams.length + p.streams_with_non_joined_data.length = 0
    · have hs0 : p.streams = [] := List.length_eq_zero.mp (by omega)
      have hn0 : p.streams_with_non_joined_data = [] := List.length_eq_zero.mp (by omega)
      refine ⟨.nullSource, ?_⟩
      simp [h0, hs0, hn0, Pipeline.setFirstStream, Pipeline.firstStream,
        BlockInputStream.sortAnnotations]
    · by_cases h1 : p.streams.length + p.streams_with_non_joined_data.length = 1
      · by_cases hs1 : p.streams.length = 1
        · obtain ⟨s, hs⟩ := List.length_eq_one.mp hs1
          have hn0 : p.streams_with_non_joined_data = [] := List.length_eq_zero.mp (by omega)
          refine ⟨.partialSort s (getSortDescription q) (getLimitForSorting q)
            (sortSizeLimits settings), ?_⟩
          simp [h0, h1, hs1, hs, hn0, Pipeline.setFirstStream, Pipeline.firstStream,
            BlockInputStream.sortAnnotations, hcs s (by simp [hs])]
        · obtain ⟨t, ht⟩ := List.length_eq_one.mp
            (show p.streams_with_non_joined_data.length = 1 by omega)
          have hs0 : p.streams = [] := List.length_eq_zero.mp (by omega)
          refine ⟨.partialSort t (getSortDescription q) (getLimitForSorting q)
            (sortSizeLimits settings), ?_⟩
          simp [h0, h1, hs0, ht, Pipeline.setFirstStream, Pipeline.firstStream,
            BlockInputStream.sortAnnotations, hcn t (by simp [ht])]
      · refine ⟨.unionStream
          (p.streams.map fun s => .partialSort s (getSortDescription q)
            (getLimitForSorting q) (sortSizeLimits settings))
          (p.streams_with_non_joined_data.map fun s => .partialSort s (getSortDescription q)
            (getLimitForSorting q) (sortSizeLimits settings))
          max_streams, ?_⟩
        constructor
        · simp [h0, h1, Pipeline.setFirstStream, Pipeline.firstStream]
        · constructor
          · simp [BlockInputStream.sortAnnotations,
              sortAnnotationsList_map_partialSort _ _ _ _ hcs,
              sortAnnotationsList_map_partialSort _ _ _ _ hcn]
          · intro a ha
            simp only [BlockInputStream.sortAnnotations,
              sortAnnotationsList_map_partialSort _ _ _ _ hcs,
              sortAnnotationsList_map_partialSort _ _ _ _ hcn,
              List.mem_append, List.mem_map] at ha
            rcases ha with ⟨x, _, hx⟩ | ⟨x, _, hx⟩ <;> exact hx.symm

/-- Concrete check of C6: ORDER BY v LIMIT 3 OFFSET 1 over two chains -
one merge node and two partial sorts, all carrying the bound 4 and the
same description. -/
theorem executeOrder_shared_bound_witness :
    (getLimitForSorting orderLimitQuery =
      if orderLimitQuery.clauses.limit_length.isSome && !orderLimitQuery.clauses.distinct
          && !orderLimitQuery.clauses.limit_by_expression_list.isSome then
        (getLimitLengthAndOffset orderLimitQuery).1 +
          (getLimitLengthAndOffset orderLimitQuery).2
      else 0) ∧
    ∃ inner,
      (executeOrder wSettings 4 orderLimitQuery twoPipeline).streams =
        [.mergeSorting inner (getSortDescription orderLimitQuery)
          wSettings.max_block_size (getLimitForSorting orderLimitQuery)
          wSettings.max_bytes_before_external_sort] ∧
      inner.sortAnnotations.length =
        twoPipeline.streams.length + twoPipeline.streams_with_non_joined_data.length ∧
      ∀ a ∈ inner.sortAnnotations,
        a = (getSortDescription orderLimitQuery, getLimitForSorting orderLimitQuery) :=
  executeOrder_shared_bound wSettings 4 orderLimitQuery twoPipeline (by
    intro s hs
    simp only [twoPipeline, List.append_nil, List.mem_cons, List.not_mem_nil,
      or_false] at hs
    rcases hs with rfl | rfl <;> simp [BlockInputStream.sortAnnotations])

/-- The leaf `ignoreWithTotals` clears the WITH TOTALS flag. -/
theorem ignoreWithTotals_clears (q : ASTSelectQuery) :
    (ignoreWithTotals q).clauses.group_by_with_totals = false := by
  obtain ⟨c, t⟩ := q
  rfl

/-- Forwarded `ignoreWithTotals` clears WITH TOTALS on every SELECT of
the union list. -/
theorem ignoreWithTotalsUnion_clears : (sl : SelectUnionList) →
    (ignoreWithTotalsUnion sl).allTotalsCleared = true
  | .nil => rfl
  | .cons q rest => by
    simp [ignoreWithTotalsUnion, SelectUnionList.allTotalsCleared,
      ignoreWithTotals_clears, ignoreWithTotalsUnion_clears rest]

/-- C10: when the outer query aggregates and its FROM clause is a
subquery, the nested interpreter is built over the subquery's select list
with every WITH TOTALS modifier cleared before the inner pipeline is
built; without outer aggregation the select list is passed unchanged. -/
theorem subqueryInterpreter_ignoreWithTotals (q : ASTSelectQuery) (sl : SelectUnionList)
    (h : q.tableExpr = .subquery sl) :
    (buildSubqueryInterpreter q true = some (ignoreWithTotalsUnion sl) ∧
      (ignoreWithTotalsUnion sl).allTotalsCleared = true) ∧
    buildSubqueryInterpreter q false = some sl := by
  unfold buildSubqueryInterpreter
  rw [h]
  exact ⟨⟨rfl, ignoreWithTotalsUnion_clears sl⟩, rfl⟩

/-- Concrete check of C10 on a subquery whose SELECT has WITH TOTALS. -/
theorem subqueryInterpreter_ignoreWithTotals_witness :
    (buildSubqueryInterpreter limitOverTotalsSubquery true =
        some (ignoreWithTotalsUnion (.cons innerTotalsOrderQuery .nil)) ∧
      (ignoreWithTotalsUnion (.cons innerTotalsOrderQuery .nil)).allTotalsCleared = true) ∧
    buildSubqueryInterpreter limitOverTotalsSubquery false =
      some (.cons innerTotalsOrderQuery .nil) :=
  subqueryInterpreter_ignoreWithTotals limitOverTotalsSubquery
    (.cons innerTotalsOrderQuery .nil) rfl

set_option maxHeartbeats 1600000 in
/-- C2 (amended): when the fetch reports WithMergeableState and the
target stage is WithMergeableState, `executeImpl` raises the fatal
"Distributed on Distributed" error immediately after the fetch: the
pipeline carried by the exception is exactly the fetch result, so no
operator beyond those already present from the fetch stage has been
attached - though the fetch-stage chains themselves (and, for an empty
fetch, the substituted empty source) already exist at that point. -/
theorem executeImpl_distributedOnDistributed (env : InterpreterEnv) (settings : Settings)
    (q : ASTSelectQuery) (input : Option BlockInputStream) (dry_run : Bool)
    (p1 : Pipeline) (ms : Nat)
    (hfetch : executeFetchColumns env settings .withMergeableState q dry_run
        { streams := input.toList, streams_with_non_joined_data := [] } =
      .ok (p1, .withMergeableState, ms)) :
    executeImpl env settings .withMergeableState q input dry_run =
      .error (.distributedOnDistributed p1) := by
  unfold executeImpl
  dsimp only
  rw [hfetch]
  rfl

/-- Concrete check of the amended C2 theorem over a remote storage. -/
theorem executeImpl_distributedOnDistributed_witness :
    executeImpl remoteEnv wSettings .withMergeableState bareTableQuery none false =
      .error (.distributedOnDistributed remoteFetchPipeline) :=
  executeImpl_distributedOnDistributed remoteEnv wSettings bareTableQuery none false
    remoteFetchPipeline 8 rfl

/-- C2 counterexample to "before any operator is built" as stated: in the
same remote-to-remote run the error is indeed raised, but the pipeline at
the throw already holds the one operator chain the fetch produced. -/
theorem executeImpl_operatorsExistAtThrow_counterexample :
    executeImpl remoteEnv wSettings .withMergeableState bareTableQuery none false =
      .error (.distributedOnDistributed remoteFetchPipeline) ∧
    remoteFetchPipeline.streams.length = 1 :=
  ⟨rfl, rfl⟩
